import Mathlib

/-!
Formal model of the interior-design backend, shallowly embedded from the
JavaScript sources: contact intake and spam scoring (`src/routes/contact.js`),
contact at-rest encryption (`src/models/Contact.js`), admin user deletion
(`src/routes/admin.js`), portfolio flat-file sync (the projects route),
blog-post save (`blogPostSchema`), and notifications
(`src/models/Notification.js`).  Strings are modelled by Lean `String`
(lists of characters); the ASCII fragment relevant to every claim behaves
identically to JS UTF-16 strings.
-/

/-- Model of JS `String.prototype.toLowerCase` on the ASCII domain
(`Char.toLower` lowercases exactly the ASCII letters). -/
def toLowerStr (s : String) : String := ⟨s.data.map Char.toLower⟩

/-- `needle` is a prefix of `hay` (helper for the substring test). -/
def isPrefixL : List Char → List Char → Bool
  | [], _ => true
  | _ :: _, [] => false
  | a :: as, b :: bs => a = b && isPrefixL as bs

/-- `needle` occurs contiguously inside the second list. -/
def containsL (needle : List Char) : List Char → Bool
  | [] => isPrefixL needle []
  | c :: t => isPrefixL needle (c :: t) || containsL needle t

/-- Model of JS `hay.includes(needle)`. -/
def strIncludes (hay needle : String) : Bool := containsL needle.data hay.data

/-- The fixed denylist from `detectSpam` in `src/routes/contact.js`. -/
def suspiciousWords : List String :=
  ["viagra", "casino", "loan", "credit", "free money", "click here"]

/-- Number of characters matched by the regex `[A-Z]` in the message. -/
def upperCount (s : String) : Nat :=
  (s.data.filter fun c => 'A' ≤ c && c ≤ 'Z').length

structure SpamResult where
  isSpam : Bool
  spamScore : Nat
deriving DecidableEq

/-- `detectSpam` from `src/routes/contact.js`.  The JS float comparison
`capsRatio > 0.7` is rendered as the exact rational comparison
`10 * upperCount > 7 * length`; for every message length reachable here the
double computation and the rational comparison agree (the nearest attainable
ratios differ from 7/10 by far more than one unit in the last place). -/
def detectSpam (message email : String) : SpamResult :=
  let msg := toLowerStr message
  let s1 := suspiciousWords.foldl
    (fun acc w => if strIncludes msg w then acc + 2 else acc) 0
  let s2 := if 10 * upperCount message > 7 * message.length then s1 + 3 else s1
  let s3 := if strIncludes email "@temp" || strIncludes email "@test" then s2 + 5 else s2
  let s4 := if message.length < 10 then s3 + 2 else s3
  ⟨decide (5 ≤ s4), s4⟩

/-- The spam score exactly as claim C1 words it: +2 for each denylist member
occurring as a substring of the lowercased message, +3 when the ratio of
uppercase characters to total characters strictly exceeds 0.7, +5 when the
email contains "@temp" or "@test", +2 when the message is shorter than 10
characters. -/
def specSpamScore (message email : String) : Nat :=
  2 * (suspiciousWords.filter fun w => strIncludes (toLowerStr message) w).length
    + (if ((upperCount message : ℚ) / (message.length : ℚ) > 7 / 10) then 3 else 0)
    + (if strIncludes email "@temp" || strIncludes email "@test" then 5 else 0)
    + (if message.length < 10 then 2 else 0)

theorem foldl_add_two (p : String → Bool) (l : List String) (a : Nat) :
    l.foldl (fun acc w => if p w then acc + 2 else acc) a
      = a + 2 * (l.filter p).length := by
  induction l generalizing a with
  | nil => simp
  | cons x xs ih =>
    by_cases h : p x <;> simp [List.filter_cons, h, ih] <;> omega

theorem ratio_gt_iff (u l : Nat) (hl : 0 < l) :
    ((u : ℚ) / (l : ℚ) > 7 / 10) ↔ 10 * u > 7 * l := by
  rw [gt_iff_lt, div_lt_div_iff (by norm_num) (by exact_mod_cast hl), gt_iff_lt]
  constructor
  · intro h
    have h' : (7 * l : ℚ) < (10 * u : ℚ) := by push_cast; linarith
    exact_mod_cast h'
  · intro h
    have h' : (7 * l : ℚ) < (10 * u : ℚ) := by exact_mod_cast h
    push_cast at h'; linarith

theorem length_pos_of_ne_empty {s : String} (h : s ≠ "") : 0 < s.length := by
  cases s with
  | mk data =>
    cases data with
    | nil => exact absurd rfl h
    | cons c t => simp [String.length]

/-- C1: for a contact submission with non-empty message, the spam score
computed by `detectSpam` equals the spec's weighted sum (denylist hits +2
each, uppercase ratio strictly above 0.7 gives +3, "@temp"/"@test" email +5,
message shorter than 10 characters +2), and `isSpam` holds exactly when the
cumulative score is at least 5. -/
theorem c1_detectSpam_matches_spec (message email : String) (hm : message ≠ "") :
    (detectSpam message email).spamScore = specSpamScore message email ∧
    ((detectSpam message email).isSpam = true ↔
      5 ≤ (detectSpam message email).spamScore) := by
  have hl : 0 < message.length := length_pos_of_ne_empty hm
  have hr := ratio_gt_iff (upperCount message) message.length hl
  have hs : (detectSpam message email).spamScore = specSpamScore message email := by
    unfold detectSpam specSpamScore
    simp only [hr, foldl_add_two]
    by_cases h1 : 10 * upperCount message > 7 * message.length <;>
      by_cases h2 : (strIncludes email "@temp" || strIncludes email "@test") = true <;>
        by_cases h3 : message.length < 10 <;>
          simp [h1, h2, h3] <;> omega
  refine ⟨hs, ?_⟩
  unfold detectSpam
  simp

theorem c1_detectSpam_matches_spec_witness :
    (detectSpam "BUY NOW!!" "bob@tempmail.org").spamScore
        = specSpamScore "BUY NOW!!" "bob@tempmail.org" ∧
    ((detectSpam "BUY NOW!!" "bob@tempmail.org").isSpam = true ↔
      5 ≤ (detectSpam "BUY NOW!!" "bob@tempmail.org").spamScore) :=
  c1_detectSpam_matches_spec "BUY NOW!!" "bob@tempmail.org" (by decide)

/-! ### Sensitive-field encryption (`src/models/Contact.js`)

The AES-256-CBC cipher plus `JSON.stringify`/`JSON.parse` layer is a
bijection between the four plaintext fields and the hex ciphertext (for the
fixed server key and the stored initialization vector).  It is modelled here
by a concrete reversible hex encoding of the four fields, so that the blob
layout `iv:ciphertext`, the `split(':')` parsing, the malformed-blob
failures and the placeholder overwriting are all faithfully represented. -/

/-- One hex digit (lowercase), as produced by Node's hex encoding. -/
def toHexDigit (n : Nat) : Char :=
  if n < 10 then Char.ofNat (48 + n) else Char.ofNat (87 + n)

def fromHexDigit (c : Char) : Option Nat :=
  if '0' ≤ c ∧ c ≤ '9' then some (c.toNat - 48)
  else if 'a' ≤ c ∧ c ≤ 'f' then some (c.toNat - 87)
  else none

def isHexDig (c : Char) : Bool :=
  ('0' ≤ c && c ≤ '9') || ('a' ≤ c && c ≤ 'f')

/-- `w` hex digits of `n`, most significant first (Node hex encoding of a
`w/2`-byte buffer). -/
def natToHexW : Nat → Nat → List Char
  | 0, _ => []
  | w + 1, n => toHexDigit (n / 16 ^ w % 16) :: natToHexW w n

/-- Number of bytes Node's `Buffer.from(str, 'hex')` decodes: whole hex pairs
up to the first invalid character. -/
def hexBytesLen : List Char → Nat
  | a :: b :: rest => if isHexDig a && isHexDig b then hexBytesLen rest + 1 else 0
  | _ => 0

/-- Six hex digits encoding one character code (codes are below 16^6). -/
def enc6 (n : Nat) : List Char :=
  [toHexDigit (n / 1048576 % 16), toHexDigit (n / 65536 % 16),
   toHexDigit (n / 4096 % 16), toHexDigit (n / 256 % 16),
   toHexDigit (n / 16 % 16), toHexDigit (n % 16)]

def hex6 (a b c d e f : Char) : Option Nat := do
  let x1 ← fromHexDigit a
  let x2 ← fromHexDigit b
  let x3 ← fromHexDigit c
  let x4 ← fromHexDigit d
  let x5 ← fromHexDigit e
  let x6 ← fromHexDigit f
  pure (((((x1 * 16 + x2) * 16 + x3) * 16 + x4) * 16 + x5) * 16 + x6)

/-- Ciphertext of one field: each character as six hex digits. -/
def encField : List Char → List Char
  | [] => []
  | c :: t => enc6 c.toNat ++ encField t

/-- Ciphertext of the whole JSON payload: the four fields separated by a
non-hex marker. -/
def encFields (name email phone message : List Char) : List Char :=
  encField name ++ 'g' :: encField email ++ 'g' :: encField phone ++ 'g' :: encField message

/-- Decode one field of the ciphertext: six-digit chunks up to the field
separator or the end of input. -/
def decodeField : List Char → Option (List Char × List Char)
  | [] => some ([], [])
  | x :: rest =>
    if x = 'g' then some ([], rest)
    else
      match rest with
      | b :: c :: d :: e :: f :: rest2 =>
        match hex6 x b c d e f with
        | none => none
        | some n =>
          match decodeField rest2 with
          | none => none
          | some (cs, r) => some (Char.ofNat n :: cs, r)
      | _ => none

theorem fromHexDigit_toHexDigit : ∀ m, m < 16 → fromHexDigit (toHexDigit m) = some m := by
  decide

theorem toHexDigit_ne_colon : ∀ m, m < 16 → toHexDigit m ≠ ':' := by decide

theorem toHexDigit_ne_g : ∀ m, m < 16 → toHexDigit m ≠ 'g' := by decide

theorem isHexDig_toHexDigit : ∀ m, m < 16 → isHexDig (toHexDigit m) = true := by decide

theorem char_toNat_lt (c : Char) : c.toNat < 16777216 := by
  have h : c.val.toNat < 55296 ∨ (57344 ≤ c.val.toNat ∧ c.val.toNat < 1114112) := c.valid
  have : c.toNat = c.val.toNat := rfl
  omega

theorem hex6_enc6 (n : Nat) (h : n < 16777216) :
    hex6 (toHexDigit (n / 1048576 % 16)) (toHexDigit (n / 65536 % 16))
      (toHexDigit (n / 4096 % 16)) (toHexDigit (n / 256 % 16))
      (toHexDigit (n / 16 % 16)) (toHexDigit (n % 16)) = some n := by
  have e1 := fromHexDigit_toHexDigit (n / 1048576 % 16) (Nat.mod_lt _ (by norm_num))
  have e2 := fromHexDigit_toHexDigit (n / 65536 % 16) (Nat.mod_lt _ (by norm_num))
  have e3 := fromHexDigit_toHexDigit (n / 4096 % 16) (Nat.mod_lt _ (by norm_num))
  have e4 := fromHexDigit_toHexDigit (n / 256 % 16) (Nat.mod_lt _ (by norm_num))
  have e5 := fromHexDigit_toHexDigit (n / 16 % 16) (Nat.mod_lt _ (by norm_num))
  have e6 := fromHexDigit_toHexDigit (n % 16) (Nat.mod_lt _ (by norm_num))
  simp only [hex6, e1, e2, e3, e4, e5, e6, Option.bind_some, Option.some_bind, bind, pure]
  congr 1
  omega

theorem mem_natToHexW {c : Char} : ∀ {w n : Nat}, c ∈ natToHexW w n → ∃ m, m < 16 ∧ c = toHexDigit m := by
  intro w
  induction w with
  | zero => intro n h; simp [natToHexW] at h
  | succ w ih =>
    intro n h
    simp only [natToHexW, List.mem_cons] at h
    rcases h with h | h
    · exact ⟨_, Nat.mod_lt _ (by norm_num), h⟩
    · exact ih h

theorem colon_not_mem_natToHexW (w n : Nat) : ':' ∉ natToHexW w n := by
  intro h
  obtain ⟨m, hm, he⟩ := mem_natToHexW h
  exact toHexDigit_ne_colon m hm he.symm

theorem mem_encField {c : Char} : ∀ {l : List Char}, c ∈ encField l →
    ∃ m, m < 16 ∧ c = toHexDigit m := by
  intro l
  induction l with
  | nil => intro h; simp [encField] at h
  | cons a t ih =>
    intro h
    simp only [encField, List.mem_append] at h
    rcases h with h | h
    · simp only [enc6, List.mem_cons, List.not_mem_nil, or_false] at h
      rcases h with h' | h' | h' | h' | h' | h' <;>
        exact ⟨_, Nat.mod_lt _ (by norm_num), h'⟩
    · exact ih h

theorem colon_not_mem_encField (l : List Char) : ':' ∉ encField l := by
  intro h
  obtain ⟨m, hm, he⟩ := mem_encField h
  exact toHexDigit_ne_colon m hm he.symm

theorem colon_not_mem_encFields (a b c d : List Char) :
    ':' ∉ encFields a b c d := by
  simp only [encFields, List.mem_append, List.mem_cons]
  intro h
  rcases h with ((h | h | h) | h | h) | h | h <;>
    first
      | exact colon_not_mem_encField _ h
      | exact absurd h (by decide)

theorem encFields_eq (a b c d : List Char) :
    encFields a b c d
      = encField a ++ 'g' :: (encField b ++ 'g' :: (encField c ++ 'g' :: encField d)) := by
  simp [encFields, List.append_assoc]

theorem decodeField_chunk (x b c d e f : Char) (rest : List Char) (hx : x ≠ 'g') :
    decodeField (x :: b :: c :: d :: e :: f :: rest)
      = match hex6 x b c d e f with
        | none => none
        | some n =>
          match decodeField rest with
          | none => none
          | some (cs, r) => some (Char.ofNat n :: cs, r) := by
  simp [decodeField, hx]

theorem decodeField_encField_g (l rest : List Char) :
    decodeField (encField l ++ 'g' :: rest) = some (l, rest) := by
  induction l with
  | nil =>
    simp only [encField, List.nil_append]
    rw [decodeField.eq_def]
    simp
  | cons c t ih =>
    have hne : toHexDigit (c.toNat / 1048576 % 16) ≠ 'g' :=
      toHexDigit_ne_g _ (Nat.mod_lt _ (by norm_num))
    have hlt := char_toNat_lt c
    simp only [encField, enc6, List.append_assoc, List.cons_append, List.nil_append]
    rw [decodeField_chunk _ _ _ _ _ _ _ hne, hex6_enc6 _ hlt, ih]
    simp [Char.ofNat_toNat]

theorem decodeField_encField_end (l : List Char) :
    decodeField (encField l) = some (l, []) := by
  induction l with
  | nil =>
    simp only [encField]
    rw [decodeField.eq_def]
  | cons c t ih =>
    have hne : toHexDigit (c.toNat / 1048576 % 16) ≠ 'g' :=
      toHexDigit_ne_g _ (Nat.mod_lt _ (by norm_num))
    have hlt := char_toNat_lt c
    simp only [encField, enc6, List.append_assoc, List.cons_append, List.nil_append]
    rw [decodeField_chunk _ _ _ _ _ _ _ hne, hex6_enc6 _ hlt, ih]
    simp [Char.ofNat_toNat]

theorem natToHexW_succ (w n : Nat) :
    natToHexW (w + 1) n = toHexDigit (n / 16 ^ w % 16) :: natToHexW w n := rfl

theorem hexBytesLen_natToHexW : ∀ (k n : Nat), hexBytesLen (natToHexW (2 * k) n) = k := by
  intro k
  induction k with
  | zero => intro n; simp [natToHexW, hexBytesLen]
  | succ k ih =>
    intro n
    have h2 : 2 * (k + 1) = (2 * k + 1) + 1 := by ring
    have ha := isHexDig_toHexDigit (n / 16 ^ (2 * k + 1) % 16) (Nat.mod_lt _ (by norm_num))
    have hb := isHexDig_toHexDigit (n / 16 ^ (2 * k) % 16) (Nat.mod_lt _ (by norm_num))
    rw [h2, natToHexW_succ, natToHexW_succ]
    simp [hexBytesLen, ha, hb, ih]

theorem hexBytesLen_iv (n : Nat) : hexBytesLen (natToHexW 32 n) = 16 := by
  have h := hexBytesLen_natToHexW 16 n
  norm_num at h
  exact h

/-- Model of JS `blob.split(':')`. -/
def jsSplit : List Char → List (List Char)
  | [] => [[]]
  | c :: rest =>
    match jsSplit rest with
    | [] => [[]]
    | p :: ps => if c = ':' then [] :: p :: ps else (c :: p) :: ps

theorem jsSplit_ne_nil (l : List Char) : jsSplit l ≠ [] := by
  induction l with
  | nil => simp [jsSplit]
  | cons c t ih =>
    simp only [jsSplit]
    cases h : jsSplit t with
    | nil => simp
    | cons p ps => by_cases hc : c = ':' <;> simp [hc]

theorem jsSplit_no_colon : ∀ (l : List Char), ':' ∉ l → jsSplit l = [l] := by
  intro l
  induction l with
  | nil => intro _; rfl
  | cons c t ih =>
    intro h
    have hc : c ≠ ':' := fun he => h (he ▸ List.mem_cons_self c t)
    have ht : ':' ∉ t := fun hm => h (List.mem_cons_of_mem c hm)
    simp [jsSplit, ih ht, hc]

theorem jsSplit_colon_append : ∀ (a b : List Char), ':' ∉ a →
    jsSplit (a ++ ':' :: b) = a :: jsSplit b := by
  intro a
  induction a with
  | nil =>
    intro b _
    simp only [List.nil_append, jsSplit]
    cases h : jsSplit b with
    | nil => exact absurd h (jsSplit_ne_nil b)
    | cons p ps => simp
  | cons c t ih =>
    intro b h
    have hc : c ≠ ':' := fun he => h (he ▸ List.mem_cons_self c t)
    have ht : ':' ∉ t := fun hm => h (List.mem_cons_of_mem c hm)
    simp only [List.cons_append, jsSplit, List.append_eq]
    rw [ih b ht]
    simp [hc]

/-- The decrypted JSON payload of a contact record: the object
`JSON.stringify` serialises in `encryptSensitiveData`. -/
structure SensitivePayload where
  name : String
  email : String
  phone : String
  message : String
deriving DecidableEq

/-- A contact document (`contactSchema` in `src/models/Contact.js`), plus the
Mongoose document-state flag `isNew` (true until the first successful save). -/
structure Contact where
  name : String
  email : String
  phone : String
  service : String
  budget : String
  message : String
  status : String
  ipAddress : String
  userAgent : String
  isSpam : Bool
  spamScore : Nat
  encryptedData : Option String
  isNew : Bool
deriving DecidableEq

/-- Model of JS `String.prototype.trim` (the Mongoose `trim: true` setter) on
the ASCII whitespace domain. -/
def trimStr (s : String) : String :=
  ⟨((s.data.dropWhile Char.isWhitespace).reverse.dropWhile Char.isWhitespace).reverse⟩

/-- A new contact document built by `POST /api/contact` from the submitted
fields; the Mongoose setters run on assignment: `trim: true` on name and
phone, `lowercase: true` on email, `status` defaults to `new`. -/
def mkContact (name email phone service budget message ipAddress userAgent : String)
    (isSpam : Bool) (spamScore : Nat) : Contact :=
  { name := trimStr name, email := toLowerStr email, phone := trimStr phone,
    service := service, budget := budget, message := message, status := "new",
    ipAddress := ipAddress, userAgent := userAgent, isSpam := isSpam,
    spamScore := spamScore, encryptedData := none, isNew := true }

/-- `contactSchema.methods.encryptSensitiveData`: serialise the four
sensitive fields, encrypt them under the server key with a fresh random
16-byte initialization vector (the parameter `ivn`), store
`iv.toString('hex') + ':' + ciphertextHex` in `encryptedData`, and overwrite
the plaintext fields with the placeholder. -/
def encryptSensitiveData (c : Contact) (ivn : Nat) : Contact :=
  { c with
    encryptedData :=
      some ⟨natToHexW 32 ivn ++ ':' :: encFields c.name.data c.email.data c.phone.data c.message.data⟩,
    name := "[ENCRYPTED]", email := "[ENCRYPTED]",
    phone := "[ENCRYPTED]", message := "[ENCRYPTED]" }

/-- `contactSchema.methods.decryptSensitiveData`: `null` when there is no
blob; otherwise split on `:`, reject an initialization vector that is not 16
bytes of hex (`createDecipheriv` throws, the catch returns `null`), and
decrypt-and-parse the ciphertext, any failure yielding `null`. -/
def decryptSensitiveData (c : Contact) : Option SensitivePayload :=
  match c.encryptedData with
  | none => none
  | some blob =>
    match jsSplit blob.data with
    | p0 :: p1 :: _ =>
      if hexBytesLen p0 = 16 then
        match decodeField p1 with
        | none => none
        | some (f1, r1) =>
          match decodeField r1 with
          | none => none
          | some (f2, r2) =>
            match decodeField r2 with
            | none => none
            | some (f3, r3) =>
              match decodeField r3 with
              | none => none
              | some (f4, r4) =>
                if r4 = [] then some ⟨⟨f1⟩, ⟨f2⟩, ⟨f3⟩, ⟨f4⟩⟩ else none
      else none
    | _ => none

/-- `contactSchema.pre('save')` plus the persistence step: encrypt only when
the document is new and has no blob yet, then the stored document is no
longer new.  (Mongoose field validation runs before this hook and leaves the
document unchanged, so it is not represented.) -/
def saveContact (c : Contact) (ivn : Nat) : Contact :=
  let c' := if c.isNew && c.encryptedData.isNone then encryptSensitiveData c ivn else c
  { c' with isNew := false }

/-- The four response fields the admin listing/detail handlers build
(`router.get` in `src/routes/contact.js`): decrypted values when decryption
succeeds, the stored (placeholder) fields otherwise. -/
structure ContactView where
  name : String
  email : String
  phone : String
  message : String
deriving DecidableEq

def adminView (c : Contact) : ContactView :=
  match decryptSensitiveData c with
  | some d => ⟨d.name, d.email, d.phone, d.message⟩
  | none => ⟨c.name, c.email, c.phone, c.message⟩

/-- `PUT /api/contact/:id`: set the status when one is submitted, then save. -/
def putStatus (c : Contact) (status : Option String) (ivn : Nat) : Contact :=
  saveContact (match status with | some s => { c with status := s } | none => c) ivn

theorem decrypt_encrypt (c : Contact) (ivn : Nat) :
    decryptSensitiveData (encryptSensitiveData c ivn)
      = some ⟨c.name, c.email, c.phone, c.message⟩ := by
  unfold decryptSensitiveData encryptSensitiveData
  simp only
  rw [jsSplit_colon_append _ _ (colon_not_mem_natToHexW 32 ivn),
    jsSplit_no_colon _ (colon_not_mem_encFields _ _ _ _)]
  simp [hexBytesLen_iv, encFields_eq, decodeField_encField_g, decodeField_encField_end]

theorem decrypt_only_reads_blob {c c' : Contact}
    (h : c.encryptedData = c'.encryptedData) :
    decryptSensitiveData c = decryptSensitiveData c' := by
  unfold decryptSensitiveData
  rw [h]

/-- Round trip through a first save of a freshly built contact. -/
theorem decrypt_first_save (name email phone service budget message ip ua : String)
    (isSpam : Bool) (score ivn : Nat) :
    decryptSensitiveData
        (saveContact (mkContact name email phone service budget message ip ua isSpam score) ivn)
      = some ⟨trimStr name, toLowerStr email, trimStr phone, message⟩ := by
  have h1 : saveContact (mkContact name email phone service budget message ip ua isSpam score) ivn
      = { encryptSensitiveData (mkContact name email phone service budget message ip ua isSpam score) ivn
          with isNew := false } := by
    unfold saveContact
    simp [mkContact]
  have h2 : decryptSensitiveData
      { encryptSensitiveData (mkContact name email phone service budget message ip ua isSpam score) ivn
        with isNew := false }
      = decryptSensitiveData
          (encryptSensitiveData (mkContact name email phone service budget message ip ua isSpam score) ivn) :=
    decrypt_only_reads_blob rfl
  rw [h1, h2, decrypt_encrypt]
  rfl

/-- C2 (counterexample): the round trip does not return the email as
submitted, because the schema setter `lowercase: true` normalises it before
encryption. -/
theorem c2_roundtrip_counterexample :
    decryptSensitiveData
        (saveContact (mkContact "John Doe" "JOHN@EXAMPLE.COM" "12345" "" ""
          "Hello from John" "1.2.3.4" "agent" false 0) 7)
      ≠ some ⟨"John Doe", "JOHN@EXAMPLE.COM", "12345", "Hello from John"⟩ := by
  rw [decrypt_first_save]
  decide

/-- C2 (amended): decrypting a freshly saved contact record returns exactly
the values the schema stored: the name and phone as trimmed and the email as
lowercased by the Mongoose setters, and the message as submitted (hence
exactly the submitted values whenever the email is already lowercase and
name/phone carry no surrounding whitespace). -/
theorem c2_decrypt_returns_stored_fields
    (name email phone service budget message ip ua : String)
    (isSpam : Bool) (score ivn : Nat) :
    decryptSensitiveData
        (saveContact (mkContact name email phone service budget message ip ua isSpam score) ivn)
      = some ⟨trimStr name, toLowerStr email, trimStr phone, message⟩ :=
  decrypt_first_save name email phone service budget message ip ua isSpam score ivn

/-- C3: the first save of a new contact record stores a blob of the form
`iv:ciphertext` (the hex of the per-record initialization vector, a colon,
the ciphertext), the ciphertext decrypts back to the stored plaintext of the
four sensitive fields, and each of the four plaintext fields is overwritten
with the placeholder marker. -/
theorem c3_first_save_encrypts
    (name email phone service budget message ip ua : String)
    (isSpam : Bool) (score ivn : Nat) :
    (∃ ct : List Char,
      (saveContact (mkContact name email phone service budget message ip ua isSpam score) ivn).encryptedData
        = some ⟨natToHexW 32 ivn ++ ':' :: ct⟩) ∧
    decryptSensitiveData
        (saveContact (mkContact name email phone service budget message ip ua isSpam score) ivn)
      = some ⟨trimStr name, toLowerStr email, trimStr phone, message⟩ ∧
    (saveContact (mkContact name email phone service budget message ip ua isSpam score) ivn).name
      = "[ENCRYPTED]" ∧
    (saveContact (mkContact name email phone service budget message ip ua isSpam score) ivn).email
      = "[ENCRYPTED]" ∧
    (saveContact (mkContact name email phone service budget message ip ua isSpam score) ivn).phone
      = "[ENCRYPTED]" ∧
    (saveContact (mkContact name email phone service budget message ip ua isSpam score) ivn).message
      = "[ENCRYPTED]" := by
  refine ⟨⟨encFields (trimStr name).data (toLowerStr email).data (trimStr phone).data message.data, ?_⟩,
    decrypt_first_save name email phone service budget message ip ua isSpam score ivn,
    ?_, ?_, ?_, ?_⟩ <;>
  simp [saveContact, mkContact, encryptSensitiveData]

/-- A concrete stored contact document (placeholders in the plaintext
fields, no blob, already persisted). -/
def contactStored : Contact :=
  { name := "[ENCRYPTED]", email := "[ENCRYPTED]", phone := "[ENCRYPTED]",
    service := "", budget := "", message := "[ENCRYPTED]", status := "new",
    ipAddress := "1.2.3.4", userAgent := "agent", isSpam := false,
    spamScore := 0, encryptedData := none, isNew := false }

/-- C4: `decryptSensitiveData` is a total function into an option: a record
with no blob decrypts to `none`; whenever decryption yields `none`, the admin
view keeps the stored placeholder fields unchanged; and malformed blobs (no
colon separator, or an initialization vector that is not 16 bytes of hex)
also decrypt to `none` instead of failing. -/
theorem c4_decrypt_never_throws (c : Contact) :
    (c.encryptedData = none → decryptSensitiveData c = none) ∧
    (decryptSensitiveData c = none →
      adminView c = ⟨c.name, c.email, c.phone, c.message⟩) ∧
    decryptSensitiveData { c with encryptedData := some "notavalidblob" } = none ∧
    decryptSensitiveData { c with encryptedData := some "zz11:00" } = none := by
  refine ⟨?_, ?_, ?_, ?_⟩
  · intro h
    unfold decryptSensitiveData
    rw [h]
  · intro h
    unfold adminView
    rw [h]
  · have h : decryptSensitiveData { c with encryptedData := some "notavalidblob" }
        = decryptSensitiveData { contactStored with encryptedData := some "notavalidblob" } :=
      decrypt_only_reads_blob rfl
    rw [h]
    decide
  · have h : decryptSensitiveData { c with encryptedData := some "zz11:00" }
        = decryptSensitiveData { contactStored with encryptedData := some "zz11:00" } :=
      decrypt_only_reads_blob rfl
    rw [h]
    decide

theorem c4_decrypt_never_throws_witness :
    decryptSensitiveData contactStored = none ∧
    adminView contactStored
      = ⟨"[ENCRYPTED]", "[ENCRYPTED]", "[ENCRYPTED]", "[ENCRYPTED]"⟩ :=
  ⟨(c4_decrypt_never_throws contactStored).1 rfl,
    (c4_decrypt_never_throws contactStored).2.1
      ((c4_decrypt_never_throws contactStored).1 rfl)⟩

/-- C10: saving an already-persisted contact (for example the admin status
update `PUT /api/contact/:id`) leaves the encrypted blob and the placeholder
name/email/phone/message unchanged and only sets the status; in general a
save of a non-new document never re-runs the encryption step. -/
theorem c10_resave_never_reencrypts (c : Contact) (s : String) (ivn : Nat)
    (h : c.isNew = false) :
    (putStatus c (some s) ivn).encryptedData = c.encryptedData ∧
    (putStatus c (some s) ivn).name = c.name ∧
    (putStatus c (some s) ivn).email = c.email ∧
    (putStatus c (some s) ivn).phone = c.phone ∧
    (putStatus c (some s) ivn).message = c.message ∧
    (putStatus c (some s) ivn).status = s ∧
    putStatus c none ivn = { c with isNew := false } ∧
    saveContact c ivn = { c with isNew := false } := by
  unfold putStatus saveContact
  simp [h]

theorem c10_resave_never_reencrypts_witness :
    (putStatus contactStored (some "read") 3).encryptedData = contactStored.encryptedData ∧
    (putStatus contactStored (some "read") 3).name = contactStored.name ∧
    (putStatus contactStored (some "read") 3).email = contactStored.email ∧
    (putStatus contactStored (some "read") 3).phone = contactStored.phone ∧
    (putStatus contactStored (some "read") 3).message = contactStored.message ∧
    (putStatus contactStored (some "read") 3).status = "read" ∧
    putStatus contactStored none 3 = { contactStored with isNew := false } ∧
    saveContact contactStored 3 = { contactStored with isNew := false } :=
  c10_resave_never_reencrypts contactStored "read" 3 rfl

/-! ### Admin user deletion (`DELETE /api/admin/users/:id` in
`src/routes/admin.js`) -/

structure User where
  id : Nat
  role : String
  isActive : Bool
deriving DecidableEq

inductive DeleteUserResult where
  | notFound
  | lastSuperadminRefused
  | deleted
deriving DecidableEq

def countSuperadmins (users : List User) : Nat :=
  (users.filter fun u => u.role = "superadmin").length

/-- The delete-user handler: 404 when the id is absent; a 400 refusal when the
target is a superadmin and at most one superadmin exists; otherwise the
document is removed. -/
def deleteUser (users : List User) (uid : Nat) : DeleteUserResult × List User :=
  match users.find? (fun u => u.id = uid) with
  | none => (DeleteUserResult.notFound, users)
  | some u =>
    if u.role = "superadmin" then
      if countSuperadmins users ≤ 1 then (DeleteUserResult.lastSuperadminRefused, users)
      else (DeleteUserResult.deleted, users.eraseP (fun v => v.id = uid))
    else (DeleteUserResult.deleted, users.eraseP (fun v => v.id = uid))

theorem countSuperadmins_append (l1 l2 : List User) :
    countSuperadmins (l1 ++ l2) = countSuperadmins l1 + countSuperadmins l2 := by
  simp [countSuperadmins, List.filter_append]

theorem countSuperadmins_cons_super {u : User} (hu : u.role = "superadmin") (l : List User) :
    countSuperadmins (u :: l) = countSuperadmins l + 1 := by
  simp [countSuperadmins, List.filter_cons, hu]

/-- C5: deleting a superadmin is refused with a 400 and leaves the store
unchanged when they are the only superadmin; with at least two superadmins
the deletion succeeds, removes exactly the targeted user, and keeps every
other user; in both cases at least one superadmin remains afterwards. -/
theorem c5_last_superadmin_protected (users : List User) (uid : Nat) (u : User)
    (hnodup : (users.map User.id).Nodup)
    (hfind : users.find? (fun v => v.id = uid) = some u)
    (hrole : u.role = "superadmin") :
    (countSuperadmins users = 1 →
      deleteUser users uid = (DeleteUserResult.lastSuperadminRefused, users)) ∧
    (2 ≤ countSuperadmins users →
      (deleteUser users uid).1 = DeleteUserResult.deleted ∧
      (∀ v ∈ (deleteUser users uid).2, v.id ≠ uid) ∧
      (∀ v ∈ users, v.id ≠ uid → v ∈ (deleteUser users uid).2)) ∧
    1 ≤ countSuperadmins (deleteUser users uid).2 := by
  have hmem : u ∈ users := List.mem_of_find?_eq_some hfind
  have hid : u.id = uid := by simpa using List.find?_some hfind
  have hpos : 1 ≤ countSuperadmins users := by
    have : u ∈ users.filter fun v => v.role = "superadmin" :=
      List.mem_filter.mpr ⟨hmem, by simp [hrole]⟩
    have := List.length_pos_of_mem this
    simpa [countSuperadmins] using this
  have hinj := List.inj_on_of_nodup_map hnodup
  have hpu : (fun v => decide (v.id = uid)) u = true := by simp [hid]
  obtain ⟨a, l1, l2, _, hpa, hsplit, herase⟩ :=
    @List.exists_of_eraseP User (fun v => decide (v.id = uid)) users u hmem hpu
  have ha : a = u := by
    have hau : a.id = u.id := by
      have : a.id = uid := by simpa using hpa
      rw [this, hid]
    have hamem : a ∈ users := by rw [hsplit]; simp
    exact hinj hamem hmem hau
  have hcount : countSuperadmins users = countSuperadmins (l1 ++ l2) + 1 := by
    rw [hsplit, countSuperadmins_append, countSuperadmins_append,
      countSuperadmins_cons_super (ha ▸ hrole)]
    omega
  refine ⟨?_, ?_, ?_⟩
  · intro hone
    unfold deleteUser
    rw [hfind]
    simp [hrole, hone]
  · intro htwo
    have hgt : ¬ countSuperadmins users ≤ 1 := by omega
    have hres : deleteUser users uid
        = (DeleteUserResult.deleted, users.eraseP (fun v => v.id = uid)) := by
      unfold deleteUser
      rw [hfind]
      simp [hrole, hgt]
    refine ⟨by rw [hres], ?_, ?_⟩
    · intro v hv
      rw [hres] at hv
      simp only at hv
      rw [herase] at hv
      intro hvid
      have haid : a.id = uid := by simpa using hpa
      have hnd : ((l1 ++ a :: l2).map User.id).Nodup := by rw [← hsplit]; exact hnodup
      have hnd2 : (a.id :: (l1.map User.id ++ l2.map User.id)).Nodup := by
        apply List.nodup_middle.mp
        have he : ((l1 ++ a :: l2).map User.id)
            = l1.map User.id ++ a.id :: l2.map User.id := by simp
        rw [← he]
        exact hnd
      have hnotmem : a.id ∉ l1.map User.id ++ l2.map User.id := (List.nodup_cons.mp hnd2).1
      apply hnotmem
      rw [← List.map_append]
      rw [show a.id = v.id by rw [haid, hvid]]
      exact List.mem_map_of_mem User.id hv
    · intro v hv hvid
      rw [hres]
      simp only
      rw [herase]
      rw [hsplit] at hv
      rcases List.mem_append.mp hv with h | h
      · exact List.mem_append.mpr (Or.inl h)
      · rcases List.mem_cons.mp h with h | h
        · have haid : a.id = uid := by simpa using hpa
          exact absurd (by rw [h, haid]) hvid
        · exact List.mem_append.mpr (Or.inr h)
  · by_cases hone : countSuperadmins users ≤ 1
    · unfold deleteUser
      rw [hfind]
      simp [hrole, hone, hpos]
    · have hres : deleteUser users uid
          = (DeleteUserResult.deleted, users.eraseP (fun v => v.id = uid)) := by
        unfold deleteUser
        rw [hfind]
        simp [hrole, hone]
      rw [hres]
      simp only
      rw [herase]
      omega

theorem c5_last_superadmin_protected_witness :
    (countSuperadmins [⟨1, "superadmin", true⟩, ⟨2, "superadmin", true⟩] = 1 →
      deleteUser [⟨1, "superadmin", true⟩, ⟨2, "superadmin", true⟩] 1
        = (DeleteUserResult.lastSuperadminRefused,
            [⟨1, "superadmin", true⟩, ⟨2, "superadmin", true⟩])) ∧
    (2 ≤ countSuperadmins [⟨1, "superadmin", true⟩, ⟨2, "superadmin", true⟩] →
      (deleteUser [⟨1, "superadmin", true⟩, ⟨2, "superadmin", true⟩] 1).1
          = DeleteUserResult.deleted ∧
      (∀ v ∈ (deleteUser [⟨1, "superadmin", true⟩, ⟨2, "superadmin", true⟩] 1).2, v.id ≠ 1) ∧
      (∀ v ∈ [(⟨1, "superadmin", true⟩ : User), ⟨2, "superadmin", true⟩], v.id ≠ 1 →
        v ∈ (deleteUser [⟨1, "superadmin", true⟩, ⟨2, "superadmin", true⟩] 1).2)) ∧
    1 ≤ countSuperadmins (deleteUser [⟨1, "superadmin", true⟩, ⟨2, "superadmin", true⟩] 1).2 :=
  c5_last_superadmin_protected _ 1 ⟨1, "superadmin", true⟩ (by decide) (by decide) rfl

/-! ### Portfolio flat-file sync (the projects route) and the public
`GET /api/portfolio` endpoint (`src/routes/public.js`) -/

structure ProjImage where
  url : String
  alt : String
  isPrimary : Bool
deriving DecidableEq

structure ClientInfo where
  name : Option String
  testimonial : Option String
deriving DecidableEq

/-- The project fields `syncProjectWithPortfolio` reads.  Optional numeric
fields are absent (`none`) when the route left them undefined; JS treats `0`
and the empty string as falsy, which the formatters below reproduce. -/
structure ProjectData where
  title : String
  description : String
  images : List ProjImage
  mainImage : String
  category : String
  sequence : Nat
  area : Option Nat
  duration : Option String
  location : Option String
  budget : Option Nat
  services : List String
  client : Option ClientInfo
deriving DecidableEq

structure Testimonial where
  rating : Nat
  content : String
  name : String
  role : String
deriving DecidableEq

/-- One entry of `portfolio.json`. -/
structure PortfolioEntry where
  id : String
  title : String
  description : String
  longDescription : String
  image : String
  mainImage : String
  images : List String
  category : String
  sequence : Nat
  area : String
  duration : String
  location : String
  budget : String
  features : List String
  testimonials : List Testimonial
deriving DecidableEq

/-- `projectData.images?.[0]?.url || projectData.mainImage`. -/
def imageOf (pd : ProjectData) : String :=
  match pd.images with
  | [] => pd.mainImage
  | i :: _ => if i.url = "" then pd.mainImage else i.url

/-- `projectData.area ? area + " sq ft" : "N/A"` (0 is falsy in JS). -/
def formatArea : Option Nat → String
  | some a => if a = 0 then "N/A" else toString a ++ " sq ft"
  | none => "N/A"

/-- `(budget / 100000).toFixed(1)` lakhs; `toFixed(1)` rounds to the nearest
tenth, ties away from zero (double rounding noise is immaterial here). -/
def formatBudget : Option Nat → String
  | some b =>
    if b = 0 then "N/A"
    else
      let t := (b + 5000) / 10000
      "₹" ++ toString (t / 10) ++ "." ++ toString (t % 10) ++ " Lakhs"
  | none => "N/A"

/-- `value || "N/A"` for optional strings. -/
def orNA : Option String → String
  | some s => if s = "" then "N/A" else s
  | none => "N/A"

/-- The portfolio entry `syncProjectWithPortfolio` builds from a project. -/
def mkPortfolioEntry (pd : ProjectData) (pid : String) : PortfolioEntry :=
  { id := pid,
    title := pd.title,
    description := pd.description,
    longDescription := pd.description,
    image := imageOf pd,
    mainImage := imageOf pd,
    images := pd.images.map ProjImage.url,
    category := pd.category,
    sequence := pd.sequence,
    area := formatArea pd.area,
    duration := orNA pd.duration,
    location := orNA pd.location,
    budget := formatBudget pd.budget,
    features := pd.services,
    testimonials :=
      match pd.client with
      | none => []
      | some cl =>
        match cl.testimonial with
        | none => []
        | some t =>
          if t = "" then []
          else [⟨5, t,
            (match cl.name with
             | some n => if n = "" then "Client" else n
             | none => "Client"), "Client"⟩] }

/-- `syncProjectWithPortfolio`: replace the entry with the same id when one
exists (the spread sets every key of the entry), otherwise push a new entry;
then sort the whole file by `sequence` (stably, as JS `Array.sort`). -/
def syncProjectWithPortfolio (pd : ProjectData) (pid : String)
    (file : List PortfolioEntry) : List PortfolioEntry :=
  let entry := mkPortfolioEntry pd pid
  let newData :=
    match file.findIdx? (fun item => item.id = pid) with
    | some i => file.set i entry
    | none => file ++ [entry]
  newData.mergeSort (fun a b => a.sequence ≤ b.sequence)

/-- `removeProjectFromPortfolio`: keep the entries whose id differs. -/
def removeProjectFromPortfolio (pid : String)
    (file : List PortfolioEntry) : List PortfolioEntry :=
  file.filter (fun item => item.id ≠ pid)

/-- `GET /api/portfolio` serves the file contents verbatim. -/
def getPortfolio (file : List PortfolioEntry) : List PortfolioEntry := file

/-- C6: after a create with a fresh project id the public portfolio list has
an entry with that id carrying the project's title, description, category and
image urls, and every pre-existing entry is still present (no other id is
touched); after the delete no entry with that id remains and every
other entry survives. -/
theorem c6_portfolio_create_delete (pd : ProjectData) (pid : String)
    (file : List PortfolioEntry) (hfresh : ∀ e ∈ file, e.id ≠ pid) :
    (∃ e ∈ getPortfolio (syncProjectWithPortfolio pd pid file),
        e.id = pid ∧ e.title = pd.title ∧ e.description = pd.description ∧
        e.category = pd.category ∧ e.images = pd.images.map ProjImage.url) ∧
    (∀ e ∈ file, e ∈ syncProjectWithPortfolio pd pid file) ∧
    (∀ e ∈ syncProjectWithPortfolio pd pid file,
        e = mkPortfolioEntry pd pid ∨ e ∈ file) ∧
    (∀ e ∈ getPortfolio
        (removeProjectFromPortfolio pid (syncProjectWithPortfolio pd pid file)),
        e.id ≠ pid) ∧
    (∀ e ∈ syncProjectWithPortfolio pd pid file, e.id ≠ pid →
        e ∈ removeProjectFromPortfolio pid (syncProjectWithPortfolio pd pid file)) := by
  have hnone : file.findIdx? (fun item => item.id = pid) = none :=
    List.findIdx?_eq_none_iff.mpr (fun e he => by simp [hfresh e he])
  have hsync : syncProjectWithPortfolio pd pid file
      = (file ++ [mkPortfolioEntry pd pid]).mergeSort
          (fun a b => a.sequence ≤ b.sequence) := by
    unfold syncProjectWithPortfolio
    rw [hnone]
  have hmem : ∀ e, e ∈ syncProjectWithPortfolio pd pid file ↔
      e ∈ file ++ [mkPortfolioEntry pd pid] := by
    intro e
    rw [hsync]
    exact List.mem_mergeSort
  refine ⟨?_, ?_, ?_, ?_, ?_⟩
  · refine ⟨mkPortfolioEntry pd pid, ?_, rfl, rfl, rfl, rfl, rfl⟩
    exact (hmem _).mpr (List.mem_append.mpr (Or.inr (List.mem_singleton.mpr rfl)))
  · intro e he
    exact (hmem e).mpr (List.mem_append.mpr (Or.inl he))
  · intro e he
    rcases List.mem_append.mp ((hmem e).mp he) with h | h
    · exact Or.inr h
    · exact Or.inl (List.mem_singleton.mp h)
  · intro e he
    have := List.mem_filter.mp he
    simpa using this.2
  · intro e he hne
    exact List.mem_filter.mpr ⟨he, by simpa using hne⟩

theorem c6_portfolio_create_delete_witness :
    (∃ e ∈ getPortfolio (syncProjectWithPortfolio
        ⟨"Villa", "A villa", [⟨"u1", "alt", true⟩], "", "residential", 2,
          none, none, none, none, [], none⟩ "p1" []),
        e.id = "p1" ∧ e.title = "Villa" ∧ e.description = "A villa" ∧
        e.category = "residential" ∧
        e.images = ([⟨"u1", "alt", true⟩] : List ProjImage).map ProjImage.url) ∧
    (∀ e ∈ ([] : List PortfolioEntry), e ∈ syncProjectWithPortfolio
        ⟨"Villa", "A villa", [⟨"u1", "alt", true⟩], "", "residential", 2,
          none, none, none, none, [], none⟩ "p1" []) ∧
    (∀ e ∈ syncProjectWithPortfolio
        ⟨"Villa", "A villa", [⟨"u1", "alt", true⟩], "", "residential", 2,
          none, none, none, none, [], none⟩ "p1" [],
        e = mkPortfolioEntry
          ⟨"Villa", "A villa", [⟨"u1", "alt", true⟩], "", "residential", 2,
            none, none, none, none, [], none⟩ "p1" ∨ e ∈ ([] : List PortfolioEntry)) ∧
    (∀ e ∈ getPortfolio (removeProjectFromPortfolio "p1" (syncProjectWithPortfolio
        ⟨"Villa", "A villa", [⟨"u1", "alt", true⟩], "", "residential", 2,
          none, none, none, none, [], none⟩ "p1" [])),
        e.id ≠ "p1") ∧
    (∀ e ∈ syncProjectWithPortfolio
        ⟨"Villa", "A villa", [⟨"u1", "alt", true⟩], "", "residential", 2,
          none, none, none, none, [], none⟩ "p1" [], e.id ≠ "p1" →
        e ∈ removeProjectFromPortfolio "p1" (syncProjectWithPortfolio
          ⟨"Villa", "A villa", [⟨"u1", "alt", true⟩], "", "residential", 2,
            none, none, none, none, [], none⟩ "p1" [])) :=
  c6_portfolio_create_delete _ "p1" [] (by simp)

/-! ### Blog-post save (`blogPostSchema` and its `pre('save')` hook) -/

def isSlugChar (c : Char) : Bool :=
  ('a' ≤ c && c ≤ 'z') || ('0' ≤ c && c ≤ '9')

/-- `replace(/[^a-z0-9]+/g, '-')`: collapse each maximal run of characters
outside `[a-z0-9]` into a single hyphen (the flag tracks being inside such a
run). -/
def collapseAux : Bool → List Char → List Char
  | _, [] => []
  | inRun, c :: rest =>
    if isSlugChar c then c :: collapseAux false rest
    else if inRun then collapseAux true rest
    else '-' :: collapseAux true rest

/-- `replace(/(^-|-$)/g, '')` removes one leading hyphen. -/
def dropLeadingHyphen : List Char → List Char
  | '-' :: rest => rest
  | l => l

def dropTrailingHyphen (l : List Char) : List Char :=
  (dropLeadingHyphen l.reverse).reverse

/-- The slug derivation of the hook: lowercase the title, collapse non
`[a-z0-9]` runs to single hyphens, strip a leading and a trailing hyphen. -/
def slugify (t : String) : String :=
  ⟨dropTrailingHyphen (dropLeadingHyphen (collapseAux false (t.data.map Char.toLower)))⟩

structure BlogPostDoc where
  title : String
  slug : Option String
  content : String
  category : String
  published : Bool
  publishedAt : Option Nat
  readingTime : Nat
deriving DecidableEq

/-- Number of maximal whitespace runs (the flag tracks being inside one). -/
def countWsRuns : Bool → List Char → Nat
  | _, [] => 0
  | inRun, c :: t =>
    if c.isWhitespace then
      if inRun then countWsRuns true t else 1 + countWsRuns true t
    else countWsRuns false t

/-- `content.split(/\s+/).length` in JS: one more than the number of
whitespace runs (a leading or trailing run contributes an empty segment). -/
def wsSegs (l : List Char) : Nat := 1 + countWsRuns false l

/-- Mongoose `required` validation for the blog schema's string paths: a
string path is missing when it is undefined or empty. -/
def validateBlogPost (b : BlogPostDoc) : Except String Unit :=
  if b.title = "" then Except.error "Title is required"
  else if (match b.slug with | none => true | some s => s = "") then
    Except.error "Slug is required"
  else if b.content = "" then Except.error "Content is required"
  else if b.category = "" then Except.error "Category is required"
  else Except.ok ()

/-- The `pre('save')` hook of `blogPostSchema`: derive the slug when absent
and the title is non-empty, recompute the reading time (ceiling of the word
count over 200), and stamp `publishedAt` on first publish. -/
def blogPreSave (b : BlogPostDoc) (now : Nat) : BlogPostDoc :=
  let b1 :=
    if (match b.slug with | none => true | some s => s = "") && b.title != "" then
      { b with slug := some (slugify b.title) }
    else b
  let b2 :=
    if b1.content != "" then
      { b1 with readingTime := (wsSegs b1.content.data + 199) / 200 }
    else b1
  if b2.published && b2.publishedAt.isNone then { b2 with publishedAt := some now }
  else b2

/-- Mongoose `save()`: document validation runs first (it is registered as
the built-in first `pre('save')` hook), and only then the user `pre('save')`
hook; a validation failure rejects the save. -/
def saveBlogPost (b : BlogPostDoc) (now : Nat) : Except String BlogPostDoc :=
  match validateBlogPost b with
  | Except.error e => Except.error e
  | Except.ok _ => Except.ok (blogPreSave b now)

/-- C7 (code bug): a blog post saved without an explicit slug is rejected by
the `required` validation on `slug` before the `pre('save')` hook that would
derive it ever runs, so the save fails instead of succeeding; the hook's own
derivation (which validation makes unreachable for such documents) does
produce the spec's slug. -/
theorem c7_slug_derivation_unreachable :
    saveBlogPost ⟨"Hello World!", none, "Great content here", "trends", false, none, 0⟩ 0
      = Except.error "Slug is required" ∧
    slugify "Hello World!" = "hello-world" ∧
    (blogPreSave ⟨"Hello World!", none, "Great content here", "trends", false, none, 0⟩ 0).slug
      = some "hello-world" := by
  refine ⟨rfl, ?_, ?_⟩ <;> decide

/-! ### Notifications (`src/models/Notification.js`) -/

structure Notification where
  id : Nat
  recipient : Nat
  read : Bool
  readAt : Option Nat
  createdAt : Nat
  expiresAt : Option Nat
deriving DecidableEq

/-- The `$or: [expiresAt: null, expiresAt: $gt now]` clause of the unread and
listing queries. -/
def notExpired (now : Nat) (n : Notification) : Bool :=
  match n.expiresAt with
  | none => true
  | some t => now < t

/-- `markAllAsRead`: set `read` and `readAt` on every unread notification of
the recipient. -/
def markAllAsRead (store : List Notification) (uid now : Nat) : List Notification :=
  store.map fun n =>
    if n.recipient = uid && !n.read then { n with read := true, readAt := some now } else n

/-- The filter of `getUnread` and `getUnreadCount`. -/
def unreadPred (uid now : Nat) (n : Notification) : Bool :=
  n.recipient = uid && !n.read && notExpired now n

def getUnreadCount (store : List Notification) (uid now : Nat) : Nat :=
  (store.filter (unreadPred uid now)).length

/-- `getUnread`: unread, unexpired, newest first, limited. -/
def getUnread (store : List Notification) (uid limit now : Nat) : List Notification :=
  ((store.filter (unreadPred uid now)).mergeSort
    (fun a b => b.createdAt ≤ a.createdAt)).take limit

/-- `getForUser`: all unexpired notifications of the user, newest first,
paginated. -/
def getForUser (store : List Notification) (uid page limit now : Nat) : List Notification :=
  (((store.filter fun n => n.recipient = uid && notExpired now n).mergeSort
    (fun a b => b.createdAt ≤ a.createdAt)).drop ((page - 1) * limit)).take limit

/-- C8: after `markAllAsRead` for a user the unread count of that user is
zero (at any query time), and a notification whose `expiresAt` lies in the
past is excluded from `getUnread`, from `getForUser`, and from the unread
count's filter. -/
theorem c8_notifications_read_and_expiry
    (store : List Notification) (uid now now2 limit page t : Nat) (n : Notification) :
    getUnreadCount (markAllAsRead store uid now) uid now2 = 0 ∧
    (n.expiresAt = some t → t ≤ now2 →
      n ∉ getUnread store uid limit now2 ∧
      n ∉ getForUser store uid page limit now2 ∧
      unreadPred uid now2 n = false) := by
  constructor
  · unfold getUnreadCount
    rw [List.length_eq_zero, List.filter_eq_nil_iff]
    intro x hx
    obtain ⟨n0, _, rfl⟩ := List.mem_map.mp hx
    by_cases h1 : n0.recipient = uid <;> by_cases h2 : n0.read = true <;>
      simp [unreadPred, h1, h2]
  · intro hexp hpast
    have hne : notExpired now2 n = false := by
      simp [notExpired, hexp]
      omega
    have hpred : unreadPred uid now2 n = false := by
      simp [unreadPred, hne]
    refine ⟨?_, ?_, hpred⟩
    · intro hmem
      have h1 := List.mem_of_mem_take hmem
      have h2 := List.mem_mergeSort.mp h1
      have h3 := (List.mem_filter.mp h2).2
      rw [hpred] at h3
      exact Bool.false_ne_true h3
    · intro hmem
      have h1 := List.mem_of_mem_take hmem
      have h1' := List.mem_of_mem_drop h1
      have h2 := List.mem_mergeSort.mp h1'
      have h3 := (List.mem_filter.mp h2).2
      simp only [Bool.and_eq_true] at h3
      rw [hne] at h3
      exact Bool.false_ne_true h3.2

theorem c8_notifications_read_and_expiry_witness :
    getUnreadCount (markAllAsRead [⟨0, 7, false, none, 5, none⟩] 7 6) 7 10 = 0 ∧
    ((⟨1, 7, false, none, 5, some 3⟩ : Notification)
        ∉ getUnread [⟨1, 7, false, none, 5, some 3⟩] 7 20 10 ∧
      (⟨1, 7, false, none, 5, some 3⟩ : Notification)
        ∉ getForUser [⟨1, 7, false, none, 5, some 3⟩] 7 1 20 10 ∧
      unreadPred 7 10 ⟨1, 7, false, none, 5, some 3⟩ = false) :=
  ⟨(c8_notifications_read_and_expiry [⟨0, 7, false, none, 5, none⟩]
      7 6 10 20 1 3 ⟨1, 7, false, none, 5, some 3⟩).1,
    (c8_notifications_read_and_expiry [⟨1, 7, false, none, 5, some 3⟩]
      7 6 10 20 1 3 ⟨1, 7, false, none, 5, some 3⟩).2 rfl (by omega)⟩

/-! ### Contact-intake fan-out (`router.post('/')` in `src/routes/contact.js`)

The handler's own `await` sequence is modelled as an ordered event trace:
the database save is awaited; the spreadsheet append (skipped for spam) and
the email send are fired without awaiting (their later completion happens
off this trace and never affects it); the admin-user lookup and the
in-app notification insert are awaited inside a try/catch; the HTTP
response is emitted last. -/

inductive ContactEvent where
  | dbSave (ok : Bool)
  | sheetsAppendStarted
  | emailSendStarted
  | adminLookup (ok : Bool)
  | notifInsert (ok : Bool)
  | respond (code : Nat)
deriving DecidableEq

structure SideOutcomes where
  saveOk : Bool
  lookupOk : Bool
  adminCount : Nat
  notifOk : Bool
deriving DecidableEq

def handleContact (nameOk emailOk messageOk isSpam : Bool) (o : SideOutcomes) :
    Nat × List ContactEvent :=
  if !(nameOk && emailOk && messageOk) then (400, [ContactEvent.respond 400])
  else if !o.saveOk then (500, [ContactEvent.dbSave false, ContactEvent.respond 500])
  else
    let t1 := ContactEvent.dbSave true
      :: (if !isSpam then [ContactEvent.sheetsAppendStarted] else [])
      ++ [ContactEvent.emailSendStarted]
    let t2 :=
      if !o.lookupOk then t1 ++ [ContactEvent.adminLookup false]
      else if o.adminCount ≠ 0 then
        t1 ++ [ContactEvent.adminLookup true, ContactEvent.notifInsert o.notifOk]
      else t1 ++ [ContactEvent.adminLookup true]
    (201, t2 ++ [ContactEvent.respond 201])

/-- C9 (counterexample): with a successful save and one active admin, the
awaited in-app notification insert completes strictly before the 201
response is emitted, so the success response is not sent before every side
effect completes. -/
theorem c9_response_not_before_notification :
    ContactEvent.notifInsert true
        ∈ (handleContact true true true false ⟨true, true, 1, true⟩).2 ∧
    ContactEvent.respond 201
        ∈ (handleContact true true true false ⟨true, true, 1, true⟩).2 ∧
    (handleContact true true true false ⟨true, true, 1, true⟩).2.findIdx
        (fun e => e = ContactEvent.notifInsert true)
      < (handleContact true true true false ⟨true, true, 1, true⟩).2.findIdx
        (fun e => e = ContactEvent.respond 201) := by
  decide

/-- C9 (amended): when the primary save succeeds the handler responds 201
whatever the admin-lookup and notification outcomes are (their failures are
caught), the spreadsheet append is initiated exactly for non-spam
submissions and the email send always, both without being awaited; the
admin in-app notification, however, is awaited before the response, so the
201 is emitted after that side effect completes, and it is emitted last. -/
theorem c9_fanout_best_effort (isSpam : Bool) (o : SideOutcomes)
    (h : o.saveOk = true) :
    (handleContact true true true isSpam o).1 = 201 ∧
    (handleContact true true true isSpam o).2.getLast?
      = some (ContactEvent.respond 201) ∧
    (isSpam = false →
      ContactEvent.sheetsAppendStarted ∈ (handleContact true true true isSpam o).2) ∧
    (isSpam = true →
      ContactEvent.sheetsAppendStarted ∉ (handleContact true true true isSpam o).2) ∧
    ContactEvent.emailSendStarted ∈ (handleContact true true true isSpam o).2 ∧
    (o.lookupOk = true → o.adminCount ≠ 0 →
      ContactEvent.notifInsert o.notifOk ∈ (handleContact true true true isSpam o).2) := by
  obtain ⟨so, lo, ac, no⟩ := o
  simp only at h
  subst h
  cases isSpam <;> cases lo <;> by_cases hac : ac = 0 <;>
    simp [handleContact, hac]

theorem c9_fanout_best_effort_witness :
    (handleContact true true true false ⟨true, false, 0, false⟩).1 = 201 ∧
    (handleContact true true true false ⟨true, false, 0, false⟩).2.getLast?
      = some (ContactEvent.respond 201) ∧
    (false = false →
      ContactEvent.sheetsAppendStarted
        ∈ (handleContact true true true false ⟨true, false, 0, false⟩).2) ∧
    (false = true →
      ContactEvent.sheetsAppendStarted
        ∉ (handleContact true true true false ⟨true, false, 0, false⟩).2) ∧
    ContactEvent.emailSendStarted
      ∈ (handleContact true true true false ⟨true, false, 0, false⟩).2 ∧
    ((⟨true, false, 0, false⟩ : SideOutcomes).lookupOk = true →
      (⟨true, false, 0, false⟩ : SideOutcomes).adminCount ≠ 0 →
      ContactEvent.notifInsert (⟨true, false, 0, false⟩ : SideOutcomes).notifOk
        ∈ (handleContact true true true false ⟨true, false, 0, false⟩).2) :=
  c9_fanout_best_effort false ⟨true, false, 0, false⟩ rfl
